import Mathlib

/-!
Shallow embedding of src/grafkom/src/main.ts (a three.js demo scene).

The embedding idealises JavaScript floating point numbers as real numbers.
Vectors are three.js Vector3 values; the three.js vector operations used by
the program (add, multiplyScalar, divideScalar, length, distanceTo,
normalize) are translated here following their three.js implementations.
Note that in the source line

  this.mesh.position.add(this.direction.multiplyScalar(PROJECTILE_SPEED));

multiplyScalar mutates the direction vector in place and returns it, so the
stored direction is rescaled by the speed factor on every update; the
embedding of Projectile.update reproduces exactly that.

Mutable module state (the projectile array, the two optional text meshes,
the cube and camera positions, the shader uniforms, the cube rotation) is
collected in a World record; the frame loop, the projectile pass and the
keydown handler become functions World -> World.
-/

namespace Grafkom

noncomputable section

/-- Vector with three real components, standing for a three.js Vector3. -/
structure Vec3 where
  x : ℝ
  y : ℝ
  z : ℝ

/-- Three.js Vector3.add: componentwise addition. -/
def Vec3.add (a b : Vec3) : Vec3 :=
  ⟨a.x + b.x, a.y + b.y, a.z + b.z⟩

/-- Three.js Vector3.multiplyScalar: componentwise scaling. -/
def Vec3.multiplyScalar (v : Vec3) (s : ℝ) : Vec3 :=
  ⟨v.x * s, v.y * s, v.z * s⟩

/-- Three.js Vector3.divideScalar, defined as multiplication by the inverse. -/
def Vec3.divideScalar (v : Vec3) (s : ℝ) : Vec3 :=
  v.multiplyScalar (1 / s)

/-- Three.js Vector3.length: Euclidean norm of the components. -/
def Vec3.length (v : Vec3) : ℝ :=
  Real.sqrt (v.x ^ 2 + v.y ^ 2 + v.z ^ 2)

/-- Three.js Vector3.distanceTo: Euclidean distance between two vectors. -/
def Vec3.distanceTo (a b : Vec3) : ℝ :=
  Real.sqrt ((a.x - b.x) ^ 2 + (a.y - b.y) ^ 2 + (a.z - b.z) ^ 2)

/-- Three.js Vector3.normalize: divideScalar by the length, or by 1 when the
length is zero (the three.js source divides by this.length() || 1). -/
def Vec3.normalize (v : Vec3) : Vec3 :=
  v.divideScalar (if v.length = 0 then 1 else v.length)

/-- Dot product of two component vectors; proof infrastructure for the
norm inequalities, not part of the translated program. -/
def Vec3.dot (a b : Vec3) : ℝ :=
  a.x * b.x + a.y * b.y + a.z * b.z

/-- Constant PROJECTILE_SPEED from main.ts line 27. -/
def PROJECTILE_SPEED : ℝ := 0.1

/-- Constant DETECTION_RADIUS from main.ts line 28. -/
def DETECTION_RADIUS : ℝ := 2

/-- Projectile from main.ts lines 157-184: mesh position, direction vector,
liveness flag; inScene records whether its mesh is a child of the scene. -/
structure Projectile where
  pos : Vec3
  dir : Vec3
  alive : Bool
  inScene : Bool

/-- Projectile constructor (main.ts lines 162-170): copies the supplied
position into the mesh, stores the normalized direction, marks the
projectile alive and adds its mesh to the scene. -/
def Projectile.spawn (position direction : Vec3) : Projectile :=
  { pos := position, dir := direction.normalize, alive := true, inScene := true }

/-- Projectile.destroy (main.ts lines 180-183): removes the mesh from the
scene and clears the liveness flag. -/
def Projectile.destroy (p : Projectile) : Projectile :=
  { p with alive := false, inScene := false }

/-- Projectile.update (main.ts lines 172-178). The source line
position.add(direction.multiplyScalar(PROJECTILE_SPEED)) first rescales the
stored direction in place by the speed factor and then adds the rescaled
direction to the position; then the projectile is destroyed when the new
position is farther than 10 from the origin. -/
def Projectile.update (p : Projectile) : Projectile :=
  let d := p.dir.multiplyScalar PROJECTILE_SPEED
  let q : Projectile := { p with pos := p.pos.add d, dir := d }
  if q.pos.length > 10 then q.destroy else q

/-- Module-level mutable state of main.ts: the projectile array, the two
optional text meshes (none until the font load callback fires, then their
fixed anchor positions), the cube and camera positions, the per-material
shader uniforms and the cube rotation angles. -/
structure World where
  projectiles : List Projectile
  letterN : Option Vec3
  number1 : Option Vec3
  cubePos : Vec3
  cameraPos : Vec3
  timeU : ℝ
  alphabetCubePosU : Vec3
  alphabetViewPosU : Vec3
  alphabetIntensity : ℝ
  digitCubePosU : Vec3
  digitViewPosU : Vec3
  digitIntensity : ℝ
  cubeRotX : ℝ
  cubeRotY : ℝ

/-- Collection that updateProjectiles iterates over after its initial
filter: projectiles.filter(p => p.alive) (main.ts line 225). -/
def liveProjectiles (w : World) : List Projectile :=
  w.projectiles.filter (fun p => p.alive)

/-- Body of the forEach loop in updateProjectiles (main.ts lines 226-245),
threading the rebuilt projectile list and the two ambient-intensity
uniforms. Each projectile is updated; then, when both text meshes exist,
both uniforms are overwritten according to the distance of the updated
projectile position to each mesh anchor. -/
def projectilePass (nPos onePos : Option Vec3)
    (st : List Projectile × ℝ × ℝ) (p : Projectile) : List Projectile × ℝ × ℝ :=
  let q := p.update
  match nPos, onePos with
  | some n, some o =>
      let aI : ℝ := if q.pos.distanceTo n < DETECTION_RADIUS then 0.8 else 0.401
      let dI : ℝ := if q.pos.distanceTo o < DETECTION_RADIUS then 0.8 else 0.401
      (st.1 ++ [q], aI, dI)
  | _, _ => (st.1 ++ [q], st.2.1, st.2.2)

/-- Function updateProjectiles (main.ts lines 224-246): reassigns the
projectile array to its live entries, then runs the forEach body over that
filtered array. -/
def updateProjectiles (w : World) : World :=
  let res := (liveProjectiles w).foldl (projectilePass w.letterN w.number1)
    ([], w.alphabetIntensity, w.digitIntensity)
  { w with projectiles := res.1, alphabetIntensity := res.2.1,
           digitIntensity := res.2.2 }

/-- Steps 1-4 of one tick of the animation loop (main.ts lines 253-261):
advance the time uniform, copy the camera position into both view-position
uniforms, copy the cube position into both light-position uniforms, rotate
the cube. -/
def animatePre (w : World) : World :=
  { w with
    timeU := w.timeU + 0.05
    alphabetViewPosU := w.cameraPos
    digitViewPosU := w.cameraPos
    alphabetCubePosU := w.cubePos
    digitCubePosU := w.cubePos
    cubeRotX := w.cubeRotX + 0.01
    cubeRotY := w.cubeRotY + 0.01 }

/-- One tick of the animation loop (main.ts lines 249-268): the uniform and
rotation updates, then updateProjectiles. Rendering has no effect on the
modelled state. -/
def animate (w : World) : World :=
  updateProjectiles (animatePre w)

/-- Font load callback (main.ts lines 194-214): creates the two text meshes
at their fixed anchor positions. -/
def fontLoaded (w : World) : World :=
  { w with letterN := some ⟨-2, 0, 0⟩, number1 := some ⟨2, 0, 0⟩ }

/-- Keys handled by the keydown listener (main.ts lines 281-311); other
stands for every key that falls through the switch. -/
inductive Key where
  | w | s | a | d | q | e | space | other
deriving DecidableEq

/-- Keydown listener (main.ts lines 281-311). The space branch clones the
cube position, builds a raw direction with one Math.random() - 0.5 sample
per axis (the samples r1 r2 r3 are passed in as parameters), and pushes a
newly constructed projectile. -/
def handleKeydown (st : World) (k : Key) (r1 r2 r3 : ℝ) : World :=
  match k with
  | Key.w => { st with cubePos := { st.cubePos with y := st.cubePos.y + 0.1 } }
  | Key.s => { st with cubePos := { st.cubePos with y := st.cubePos.y - 0.1 } }
  | Key.a => { st with cameraPos := { st.cameraPos with x := st.cameraPos.x - 0.1 } }
  | Key.d => { st with cameraPos := { st.cameraPos with x := st.cameraPos.x + 0.1 } }
  | Key.q => { st with cubePos := { st.cubePos with z := st.cubePos.z - 0.1 } }
  | Key.e => { st with cubePos := { st.cubePos with z := st.cubePos.z + 0.1 } }
  | Key.space =>
      let projectileStartPos := st.cubePos
      let projectileDirection : Vec3 := ⟨r1 - 0.5, r2 - 0.5, r3 - 0.5⟩
      { st with projectiles :=
          st.projectiles ++ [Projectile.spawn projectileStartPos projectileDirection] }
  | Key.other => st

/-- Module state after the setup code of main.ts has run, before any frame,
key event or font callback: no projectiles, no text meshes, cube at the
origin, camera at z = 5, both ambient-intensity uniforms at 0.401. -/
def initialWorld : World :=
  { projectiles := []
    letterN := none
    number1 := none
    cubePos := ⟨0, 0, 0⟩
    cameraPos := ⟨0, 0, 5⟩
    timeU := 0
    alphabetCubePosU := ⟨0, 0, 0⟩
    alphabetViewPosU := ⟨0, 0, 0⟩
    alphabetIntensity := 0.401
    digitCubePosU := ⟨0, 0, 0⟩
    digitViewPosU := ⟨0, 0, 0⟩
    digitIntensity := 0.401
    cubeRotX := 0
    cubeRotY := 0 }

end

/-! Helper lemmas about the vector operations. -/

@[simp] lemma Vec3.add_x (a b : Vec3) : (a.add b).x = a.x + b.x := rfl

@[simp] lemma Vec3.add_y (a b : Vec3) : (a.add b).y = a.y + b.y := rfl

@[simp] lemma Vec3.add_z (a b : Vec3) : (a.add b).z = a.z + b.z := rfl

@[simp] lemma Vec3.multiplyScalar_x (v : Vec3) (s : ℝ) :
    (v.multiplyScalar s).x = v.x * s := rfl

@[simp] lemma Vec3.multiplyScalar_y (v : Vec3) (s : ℝ) :
    (v.multiplyScalar s).y = v.y * s := rfl

@[simp] lemma Vec3.multiplyScalar_z (v : Vec3) (s : ℝ) :
    (v.multiplyScalar s).z = v.z * s := rfl

lemma Vec3.ext_mk (a : Vec3) : Vec3.mk a.x a.y a.z = a := rfl

lemma Vec3.length_nonneg (v : Vec3) : 0 ≤ v.length :=
  Real.sqrt_nonneg _

lemma Vec3.sq_length (v : Vec3) : v.length ^ 2 = v.x ^ 2 + v.y ^ 2 + v.z ^ 2 :=
  Real.sq_sqrt (by positivity)

lemma Vec3.length_le {v : Vec3} {c : ℝ} (hc : 0 ≤ c)
    (h : v.x ^ 2 + v.y ^ 2 + v.z ^ 2 ≤ c ^ 2) : v.length ≤ c := by
  rw [Vec3.length]
  exact (Real.sqrt_le_left hc).mpr h

lemma Vec3.length_lt_iff (v : Vec3) {c : ℝ} (hc : 0 < c) :
    v.length < c ↔ v.x ^ 2 + v.y ^ 2 + v.z ^ 2 < c ^ 2 := by
  rw [Vec3.length]
  exact Real.sqrt_lt' hc

lemma Vec3.lt_length_iff (v : Vec3) {c : ℝ} (hc : 0 ≤ c) :
    c < v.length ↔ c ^ 2 < v.x ^ 2 + v.y ^ 2 + v.z ^ 2 := by
  rw [Vec3.length]
  exact Real.lt_sqrt hc

lemma Vec3.distanceTo_lt_iff (a b : Vec3) {c : ℝ} (hc : 0 < c) :
    a.distanceTo b < c ↔
    (a.x - b.x) ^ 2 + (a.y - b.y) ^ 2 + (a.z - b.z) ^ 2 < c ^ 2 := by
  rw [Vec3.distanceTo]
  exact Real.sqrt_lt' hc

lemma Vec3.length_eval (v : Vec3) {c : ℝ} (hc : 0 ≤ c)
    (h : v.x ^ 2 + v.y ^ 2 + v.z ^ 2 = c ^ 2) : v.length = c := by
  rw [Vec3.length, h, Real.sqrt_sq hc]

lemma Vec3.distanceTo_eval (a b : Vec3) {c : ℝ} (hc : 0 ≤ c)
    (h : (a.x - b.x) ^ 2 + (a.y - b.y) ^ 2 + (a.z - b.z) ^ 2 = c ^ 2) :
    a.distanceTo b = c := by
  rw [Vec3.distanceTo, h, Real.sqrt_sq hc]

lemma Vec3.dot_le_length_mul_length (a b : Vec3) :
    a.dot b ≤ a.length * b.length := by
  have hs : (a.dot b) ^ 2 ≤
      (a.x ^ 2 + a.y ^ 2 + a.z ^ 2) * (b.x ^ 2 + b.y ^ 2 + b.z ^ 2) := by
    have h1 := sq_nonneg (a.x * b.y - a.y * b.x)
    have h2 := sq_nonneg (a.x * b.z - a.z * b.x)
    have h3 := sq_nonneg (a.y * b.z - a.z * b.y)
    rw [show a.dot b = a.x * b.x + a.y * b.y + a.z * b.z from rfl]
    nlinarith [h1, h2, h3]
  have h2 : a.length * b.length =
      Real.sqrt ((a.x ^ 2 + a.y ^ 2 + a.z ^ 2) * (b.x ^ 2 + b.y ^ 2 + b.z ^ 2)) := by
    rw [Vec3.length, Vec3.length, ← Real.sqrt_mul (by positivity)]
  rw [h2]
  calc a.dot b ≤ |a.dot b| := le_abs_self _
    _ = Real.sqrt ((a.dot b) ^ 2) := (Real.sqrt_sq_eq_abs _).symm
    _ ≤ _ := Real.sqrt_le_sqrt hs

lemma Vec3.length_add_le (a b : Vec3) :
    (a.add b).length ≤ a.length + b.length := by
  have hab := Vec3.dot_le_length_mul_length a b
  have hA := a.sq_length
  have hB := b.sq_length
  have ha := a.length_nonneg
  have hb := b.length_nonneg
  apply Vec3.length_le (by positivity)
  simp only [Vec3.add_x, Vec3.add_y, Vec3.add_z]
  have hdot : a.dot b = a.x * b.x + a.y * b.y + a.z * b.z := rfl
  nlinarith [hab]

lemma Vec3.length_multiplyScalar (v : Vec3) (s : ℝ) :
    (v.multiplyScalar s).length = |s| * v.length := by
  rw [Vec3.length, Vec3.length]
  simp only [Vec3.multiplyScalar_x, Vec3.multiplyScalar_y, Vec3.multiplyScalar_z]
  rw [show (v.x * s) ^ 2 + (v.y * s) ^ 2 + (v.z * s) ^ 2
      = s ^ 2 * (v.x ^ 2 + v.y ^ 2 + v.z ^ 2) by ring,
    Real.sqrt_mul (sq_nonneg s), Real.sqrt_sq_eq_abs]

lemma Vec3.length_normalize_le_one (v : Vec3) : v.normalize.length ≤ 1 := by
  rw [Vec3.normalize, Vec3.divideScalar, Vec3.length_multiplyScalar]
  by_cases h : v.length = 0
  · simp [h]
  · rw [if_neg h]
    have hpos : 0 < v.length := lt_of_le_of_ne v.length_nonneg (Ne.symm h)
    rw [abs_of_nonneg (by positivity), one_div, inv_mul_cancel₀ h]

lemma Vec3.length_normalize_of_ne_zero {v : Vec3} (h : v.length ≠ 0) :
    v.normalize.length = 1 := by
  rw [Vec3.normalize, Vec3.divideScalar, Vec3.length_multiplyScalar, if_neg h]
  have hpos : 0 < v.length := lt_of_le_of_ne v.length_nonneg (Ne.symm h)
  rw [abs_of_nonneg (by positivity), one_div, inv_mul_cancel₀ h]

lemma Vec3.distanceTo_add_left (a b : Vec3) :
    (a.add b).distanceTo a = b.length := by
  rw [Vec3.distanceTo, Vec3.length]
  simp only [Vec3.add_x, Vec3.add_y, Vec3.add_z]
  congr 1
  ring

/-! Helper lemmas about Projectile.update and updateProjectiles. -/

lemma Projectile.update_def (p : Projectile) :
    p.update =
      if (p.pos.add (p.dir.multiplyScalar PROJECTILE_SPEED)).length > 10 then
        Projectile.mk (p.pos.add (p.dir.multiplyScalar PROJECTILE_SPEED))
          (p.dir.multiplyScalar PROJECTILE_SPEED) false false
      else
        Projectile.mk (p.pos.add (p.dir.multiplyScalar PROJECTILE_SPEED))
          (p.dir.multiplyScalar PROJECTILE_SPEED) p.alive p.inScene := rfl

lemma Projectile.update_pos (p : Projectile) :
    (p.update).pos = p.pos.add (p.dir.multiplyScalar PROJECTILE_SPEED) := by
  rw [Projectile.update_def]
  split <;> rfl

lemma Projectile.update_dir (p : Projectile) :
    (p.update).dir = p.dir.multiplyScalar PROJECTILE_SPEED := by
  rw [Projectile.update_def]
  split <;> rfl

lemma Projectile.update_of_far {p : Projectile}
    (h : (p.pos.add (p.dir.multiplyScalar PROJECTILE_SPEED)).length > 10) :
    p.update = Projectile.mk (p.pos.add (p.dir.multiplyScalar PROJECTILE_SPEED))
      (p.dir.multiplyScalar PROJECTILE_SPEED) false false := by
  rw [Projectile.update_def, if_pos h]

lemma Projectile.update_of_near {p : Projectile}
    (h : ¬ (p.pos.add (p.dir.multiplyScalar PROJECTILE_SPEED)).length > 10) :
    p.update = Projectile.mk (p.pos.add (p.dir.multiplyScalar PROJECTILE_SPEED))
      (p.dir.multiplyScalar PROJECTILE_SPEED) p.alive p.inScene := by
  rw [Projectile.update_def, if_neg h]

lemma projectilePass_fst (nPos onePos : Option Vec3)
    (st : List Projectile × ℝ × ℝ) (p : Projectile) :
    (projectilePass nPos onePos st p).1 = st.1 ++ [p.update] := by
  cases nPos <;> cases onePos <;> rfl

lemma projectilePass_snd_of_none {nPos onePos : Option Vec3}
    (h : nPos = none ∨ onePos = none)
    (st : List Projectile × ℝ × ℝ) (p : Projectile) :
    (projectilePass nPos onePos st p).2 = st.2 := by
  cases nPos with
  | none => cases onePos <;> rfl
  | some n =>
      cases onePos with
      | none => rfl
      | some o => rcases h with h | h <;> exact Option.noConfusion h

lemma projectilePass_snd_of_some (n o : Vec3)
    (st : List Projectile × ℝ × ℝ) (p : Projectile) :
    (projectilePass (some n) (some o) st p).2 =
      (if (p.update).pos.distanceTo n < DETECTION_RADIUS then (0.8 : ℝ) else 0.401,
       if (p.update).pos.distanceTo o < DETECTION_RADIUS then (0.8 : ℝ) else 0.401) := rfl

lemma foldl_projectilePass_fst (nPos onePos : Option Vec3)
    (l : List Projectile) (acc : List Projectile × ℝ × ℝ) :
    (l.foldl (projectilePass nPos onePos) acc).1 = acc.1 ++ l.map Projectile.update := by
  induction l generalizing acc with
  | nil => simp
  | cons p t ih =>
      rw [List.foldl_cons, ih, List.map_cons, projectilePass_fst]
      simp

lemma foldl_projectilePass_snd_of_none {nPos onePos : Option Vec3}
    (h : nPos = none ∨ onePos = none)
    (l : List Projectile) (acc : List Projectile × ℝ × ℝ) :
    (l.foldl (projectilePass nPos onePos) acc).2 = acc.2 := by
  induction l generalizing acc with
  | nil => rfl
  | cons p t ih => rw [List.foldl_cons, ih, projectilePass_snd_of_none h]

lemma updateProjectiles_projectiles (w : World) :
    (updateProjectiles w).projectiles = (liveProjectiles w).map Projectile.update := by
  rw [show (updateProjectiles w).projectiles
      = ((liveProjectiles w).foldl (projectilePass w.letterN w.number1)
          ([], w.alphabetIntensity, w.digitIntensity)).1 from rfl,
    foldl_projectilePass_fst]
  simp

lemma updateProjectiles_letterN (w : World) :
    (updateProjectiles w).letterN = w.letterN := rfl

lemma updateProjectiles_number1 (w : World) :
    (updateProjectiles w).number1 = w.number1 := rfl

lemma updateProjectiles_intensities_of_none {w : World}
    (h : w.letterN = none ∨ w.number1 = none) :
    (updateProjectiles w).alphabetIntensity = w.alphabetIntensity ∧
    (updateProjectiles w).digitIntensity = w.digitIntensity := by
  have h2 := foldl_projectilePass_snd_of_none h (liveProjectiles w)
    ([], w.alphabetIntensity, w.digitIntensity)
  exact ⟨congrArg Prod.fst h2, congrArg Prod.snd h2⟩

lemma updateProjectiles_intensities_of_empty {w : World}
    (h : liveProjectiles w = []) :
    (updateProjectiles w).alphabetIntensity = w.alphabetIntensity ∧
    (updateProjectiles w).digitIntensity = w.digitIntensity := by
  have h2 : ((liveProjectiles w).foldl (projectilePass w.letterN w.number1)
      ([], w.alphabetIntensity, w.digitIntensity)).2
      = (w.alphabetIntensity, w.digitIntensity) := by
    rw [h, List.foldl_nil]
  exact ⟨congrArg Prod.fst h2, congrArg Prod.snd h2⟩

lemma updateProjectiles_intensities_of_last {w : World} {n o : Vec3}
    {l : List Projectile} {p : Projectile}
    (hn : w.letterN = some n) (ho : w.number1 = some o)
    (hl : liveProjectiles w = l ++ [p]) :
    (updateProjectiles w).alphabetIntensity =
      (if (p.update).pos.distanceTo n < DETECTION_RADIUS then (0.8 : ℝ) else 0.401) ∧
    (updateProjectiles w).digitIntensity =
      (if (p.update).pos.distanceTo o < DETECTION_RADIUS then (0.8 : ℝ) else 0.401) := by
  have h2 : ((liveProjectiles w).foldl (projectilePass w.letterN w.number1)
      ([], w.alphabetIntensity, w.digitIntensity)).2
      = (if (p.update).pos.distanceTo n < DETECTION_RADIUS then (0.8 : ℝ) else 0.401,
         if (p.update).pos.distanceTo o < DETECTION_RADIUS then (0.8 : ℝ) else 0.401) := by
    rw [hl, hn, ho, List.foldl_append, List.foldl_cons, List.foldl_nil,
      projectilePass_snd_of_some]
  exact ⟨congrArg Prod.fst h2, congrArg Prod.snd h2⟩

lemma liveProjectiles_animatePre (w : World) :
    liveProjectiles (animatePre w) = liveProjectiles w := rfl

lemma animate_projectiles (w : World) :
    (animate w).projectiles = (liveProjectiles w).map Projectile.update := by
  rw [animate, updateProjectiles_projectiles, liveProjectiles_animatePre]

/-! Helper lemmas for the iterated update: because update rescales the
stored direction in place, after n updates the direction is the initial
one scaled by 0.1 to the n and the position has moved by the partial
geometric sum (1 - 0.1 to the n) / 9 along the initial direction. -/

lemma Vec3.eq_of_components {a b : Vec3}
    (hx : a.x = b.x) (hy : a.y = b.y) (hz : a.z = b.z) : a = b := by
  cases a
  cases b
  simp_all

lemma update_iterate (start d : Vec3) (hd : d.length ≤ 1)
    (hs : start.length ≤ 9.8) (n : ℕ) :
    Projectile.update^[n] (Projectile.mk start d true true) =
      Projectile.mk (start.add (d.multiplyScalar ((1 - (0.1 : ℝ) ^ n) / 9)))
        (d.multiplyScalar ((0.1 : ℝ) ^ n)) true true := by
  induction n with
  | zero =>
      simp only [Function.iterate_zero, id_eq, pow_zero]
      congr 1
      · apply Vec3.eq_of_components <;> simp
      · apply Vec3.eq_of_components <;> simp
  | succ n ih =>
      rw [Function.iterate_succ_apply', ih]
      have hdn : 0 ≤ d.length := d.length_nonneg
      have hpow : 0 < (0.1 : ℝ) ^ n := pow_pos (by norm_num) n
      have hple : (0.1 : ℝ) ^ n ≤ 1 := pow_le_one₀ (by norm_num) (by norm_num)
      have hc : (0 : ℝ) ≤ (1 - (0.1 : ℝ) ^ n) / 9 := by linarith
      have hcb : (1 - (0.1 : ℝ) ^ n) / 9 ≤ 1 / 9 := by linarith
      have hb1 : (d.multiplyScalar ((1 - (0.1 : ℝ) ^ n) / 9)).length
          ≤ (1 - (0.1 : ℝ) ^ n) / 9 := by
        rw [Vec3.length_multiplyScalar, abs_of_nonneg hc]
        calc (1 - (0.1 : ℝ) ^ n) / 9 * d.length ≤ (1 - (0.1 : ℝ) ^ n) / 9 * 1 :=
              mul_le_mul_of_nonneg_left hd hc
          _ = (1 - (0.1 : ℝ) ^ n) / 9 := by ring
      have hb2 : ((d.multiplyScalar ((0.1 : ℝ) ^ n)).multiplyScalar
          PROJECTILE_SPEED).length ≤ (0.1 : ℝ) * (0.1 : ℝ) ^ n := by
        rw [Vec3.length_multiplyScalar, Vec3.length_multiplyScalar]
        rw [show PROJECTILE_SPEED = (0.1 : ℝ) from rfl,
          abs_of_nonneg (by norm_num : (0 : ℝ) ≤ 0.1),
          abs_of_nonneg (le_of_lt hpow)]
        calc (0.1 : ℝ) * ((0.1 : ℝ) ^ n * d.length)
            ≤ (0.1 : ℝ) * ((0.1 : ℝ) ^ n * 1) := by
              apply mul_le_mul_of_nonneg_left _ (by norm_num)
              exact mul_le_mul_of_nonneg_left hd (le_of_lt hpow)
          _ = (0.1 : ℝ) * (0.1 : ℝ) ^ n := by ring
      have hnot : ¬ ((start.add (d.multiplyScalar ((1 - (0.1 : ℝ) ^ n) / 9))).add
          ((d.multiplyScalar ((0.1 : ℝ) ^ n)).multiplyScalar
            PROJECTILE_SPEED)).length > 10 := by
        apply not_lt.mpr
        calc ((start.add (d.multiplyScalar ((1 - (0.1 : ℝ) ^ n) / 9))).add
            ((d.multiplyScalar ((0.1 : ℝ) ^ n)).multiplyScalar
              PROJECTILE_SPEED)).length
            ≤ (start.add (d.multiplyScalar ((1 - (0.1 : ℝ) ^ n) / 9))).length
              + ((d.multiplyScalar ((0.1 : ℝ) ^ n)).multiplyScalar
                PROJECTILE_SPEED).length := Vec3.length_add_le _ _
          _ ≤ (start.length + (d.multiplyScalar ((1 - (0.1 : ℝ) ^ n) / 9)).length)
              + ((d.multiplyScalar ((0.1 : ℝ) ^ n)).multiplyScalar
                PROJECTILE_SPEED).length := by
              have := Vec3.length_add_le start (d.multiplyScalar ((1 - (0.1 : ℝ) ^ n) / 9))
              linarith
          _ ≤ 10 := by linarith
      rw [Projectile.update_of_near
        (p := Projectile.mk (start.add (d.multiplyScalar ((1 - (0.1 : ℝ) ^ n) / 9)))
          (d.multiplyScalar ((0.1 : ℝ) ^ n)) true true) hnot]
      congr 1
      · apply Vec3.eq_of_components <;>
          simp [PROJECTILE_SPEED, pow_succ] <;> ring
      · apply Vec3.eq_of_components <;>
          simp [PROJECTILE_SPEED, pow_succ] <;> ring

/-! Evaluation lemmas for update on concrete component values. -/

lemma update_concrete {px py pz dx dy dz : ℝ} {a i : Bool}
    (h : (px + dx * 0.1) ^ 2 + (py + dy * 0.1) ^ 2 + (pz + dz * 0.1) ^ 2 ≤ 100) :
    (Projectile.mk ⟨px, py, pz⟩ ⟨dx, dy, dz⟩ a i).update
      = Projectile.mk ⟨px + dx * 0.1, py + dy * 0.1, pz + dz * 0.1⟩
          ⟨dx * 0.1, dy * 0.1, dz * 0.1⟩ a i := by
  have hnot : ¬ ((⟨px, py, pz⟩ : Vec3).add
      ((⟨dx, dy, dz⟩ : Vec3).multiplyScalar PROJECTILE_SPEED)).length > 10 := by
    apply not_lt.mpr
    apply Vec3.length_le (by norm_num)
    simp only [Vec3.add_x, Vec3.add_y, Vec3.add_z, Vec3.multiplyScalar_x,
      Vec3.multiplyScalar_y, Vec3.multiplyScalar_z]
    rw [show PROJECTILE_SPEED = (0.1 : ℝ) from rfl]
    norm_num
    linarith
  rw [Projectile.update_of_near (p := Projectile.mk ⟨px, py, pz⟩ ⟨dx, dy, dz⟩ a i) hnot]
  congr 1

lemma update_concrete_far {px py pz dx dy dz : ℝ} {a i : Bool}
    (h : 100 < (px + dx * 0.1) ^ 2 + (py + dy * 0.1) ^ 2 + (pz + dz * 0.1) ^ 2) :
    (Projectile.mk ⟨px, py, pz⟩ ⟨dx, dy, dz⟩ a i).update
      = Projectile.mk ⟨px + dx * 0.1, py + dy * 0.1, pz + dz * 0.1⟩
          ⟨dx * 0.1, dy * 0.1, dz * 0.1⟩ false false := by
  have hfar : ((⟨px, py, pz⟩ : Vec3).add
      ((⟨dx, dy, dz⟩ : Vec3).multiplyScalar PROJECTILE_SPEED)).length > 10 := by
    apply (Vec3.lt_length_iff _ (by norm_num)).mpr
    simp only [Vec3.add_x, Vec3.add_y, Vec3.add_z, Vec3.multiplyScalar_x,
      Vec3.multiplyScalar_y, Vec3.multiplyScalar_z]
    rw [show PROJECTILE_SPEED = (0.1 : ℝ) from rfl]
    norm_num
    linarith
  rw [Projectile.update_of_far (p := Projectile.mk ⟨px, py, pz⟩ ⟨dx, dy, dz⟩ a i) hfar]
  congr 1

/-! Frame-level field preservation lemmas. -/

lemma animate_letterN (w : World) : (animate w).letterN = w.letterN := rfl

lemma animate_number1 (w : World) : (animate w).number1 = w.number1 := rfl

lemma animate_iterate_meshes_none (n : ℕ) :
    (animate^[n] initialWorld).letterN = none ∧
    (animate^[n] initialWorld).number1 = none := by
  induction n with
  | zero => exact ⟨rfl, rfl⟩
  | succ n ih =>
      rw [Function.iterate_succ_apply', animate_letterN, animate_number1]
      exact ih

/-! Claim theorems. -/

/-- C3 counterexample: the claim says the projectile collection contains
only live entries after each update pass completes; but a projectile that
crosses the distance-10 boundary during the pass is only flagged dead and
stays in the collection until the next pass's initial filter. Starting a
pass with a live projectile at (9.95, 0, 0) moving along (1, 0, 0), the
pass leaves the collection holding exactly one entry whose liveness flag is
false. -/
theorem C3_counterexample :
    ∃ q ∈ (updateProjectiles { initialWorld with projectiles :=
      [Projectile.mk ⟨9.95, 0, 0⟩ ⟨1, 0, 0⟩ true true] }).projectiles,
      q.alive = false := by
  refine ⟨(Projectile.mk ⟨9.95, 0, 0⟩ ⟨1, 0, 0⟩ true true).update, ?_, ?_⟩
  · rw [updateProjectiles_projectiles]
    simp [liveProjectiles]
  · rw [update_concrete_far (by norm_num)]

/-- C3 (amended): a projectile marked dead during a pass remains, merely
flagged, in the collection until the start of the next pass, whose initial
filter removes it before the iteration; consequently the collection that a
pass iterates over never contains a dead entry. -/
theorem C3_iterated_collection_live (w : World) (p : Projectile)
    (h : p.alive = false) : p ∉ liveProjectiles w := by
  intro hmem
  have h2 := (List.mem_filter.mp hmem).2
  rw [h] at h2
  exact Bool.noConfusion h2

/-- C3 witness: a concrete dead projectile is not in the iterated
collection of a concrete world that holds it. -/
theorem C3_iterated_collection_live_witness :
    Projectile.mk ⟨0, 0, 0⟩ ⟨0, 0, 0⟩ false false ∉ liveProjectiles
      { initialWorld with projectiles :=
        [Projectile.mk ⟨0, 0, 0⟩ ⟨0, 0, 0⟩ false false] } :=
  C3_iterated_collection_live _ _ rfl

/-- C4: a projectile whose position ends an update step farther than 10
from the origin has, in that same step, its liveness flag cleared and its
mesh removed from the scene, and a dead projectile is absent from the
collection any pass iterates over. -/
theorem C4_far_projectile_destroyed (p : Projectile)
    (h : (p.update).pos.length > 10) :
    (p.update).alive = false ∧ (p.update).inScene = false ∧
    ∀ w : World, p.update ∉ liveProjectiles w := by
  have h2 : (p.pos.add (p.dir.multiplyScalar PROJECTILE_SPEED)).length > 10 := by
    rw [← Projectile.update_pos]
    exact h
  rw [Projectile.update_of_far h2]
  refine ⟨rfl, rfl, ?_⟩
  intro w hmem
  have h3 := (List.mem_filter.mp hmem).2
  exact Bool.noConfusion h3

/-- C4 witness: a live projectile at (10, 0, 0) moving along (1, 0, 0)
ends its update step at distance 10.1 from the origin, is destroyed, and
is absent from the live collection of a world that holds it. -/
theorem C4_far_projectile_destroyed_witness :
    ((Projectile.mk ⟨10, 0, 0⟩ ⟨1, 0, 0⟩ true true).update).alive = false ∧
    (Projectile.mk ⟨10, 0, 0⟩ ⟨1, 0, 0⟩ true true).update ∉ liveProjectiles
      { initialWorld with projectiles :=
        [(Projectile.mk ⟨10, 0, 0⟩ ⟨1, 0, 0⟩ true true).update] } := by
  have h : ((Projectile.mk ⟨10, 0, 0⟩ ⟨1, 0, 0⟩ true true).update).pos.length > 10 := by
    rw [update_concrete_far (by norm_num)]
    apply (Vec3.lt_length_iff _ (by norm_num)).mpr
    norm_num
  exact ⟨(C4_far_projectile_destroyed _ h).1,
    (C4_far_projectile_destroyed _ h).2.2 _⟩

/-- C7: every handled key-down applies exactly its fixed 0.1-step mapping
and touches no other state: w/s translate the cube on Y, a/d translate the
camera on X, q/e translate the cube on Z, space pushes one projectile
spawned at the cube's current position from raw per-axis samples
Math.random() - 0.5, which lie in [-0.5, 0.5]; unhandled keys change
nothing. -/
theorem C7_keydown_mappings (st : World) (r1 r2 r3 : ℝ)
    (h1 : 0 ≤ r1 ∧ r1 < 1) (h2 : 0 ≤ r2 ∧ r2 < 1) (h3 : 0 ≤ r3 ∧ r3 < 1) :
    handleKeydown st Key.w r1 r2 r3
      = { st with cubePos := { st.cubePos with y := st.cubePos.y + 0.1 } } ∧
    handleKeydown st Key.s r1 r2 r3
      = { st with cubePos := { st.cubePos with y := st.cubePos.y - 0.1 } } ∧
    handleKeydown st Key.a r1 r2 r3
      = { st with cameraPos := { st.cameraPos with x := st.cameraPos.x - 0.1 } } ∧
    handleKeydown st Key.d r1 r2 r3
      = { st with cameraPos := { st.cameraPos with x := st.cameraPos.x + 0.1 } } ∧
    handleKeydown st Key.q r1 r2 r3
      = { st with cubePos := { st.cubePos with z := st.cubePos.z - 0.1 } } ∧
    handleKeydown st Key.e r1 r2 r3
      = { st with cubePos := { st.cubePos with z := st.cubePos.z + 0.1 } } ∧
    handleKeydown st Key.space r1 r2 r3
      = { st with projectiles := st.projectiles
          ++ [Projectile.spawn st.cubePos ⟨r1 - 0.5, r2 - 0.5, r3 - 0.5⟩] } ∧
    (-0.5 ≤ r1 - 0.5 ∧ r1 - 0.5 ≤ 0.5) ∧
    (-0.5 ≤ r2 - 0.5 ∧ r2 - 0.5 ≤ 0.5) ∧
    (-0.5 ≤ r3 - 0.5 ∧ r3 - 0.5 ≤ 0.5) ∧
    handleKeydown st Key.other r1 r2 r3 = st := by
  refine ⟨rfl, rfl, rfl, rfl, rfl, rfl, rfl, ?_, ?_, ?_, rfl⟩
  · exact ⟨by linarith [h1.1], by linarith [h1.2]⟩
  · exact ⟨by linarith [h2.1], by linarith [h2.2]⟩
  · exact ⟨by linarith [h3.1], by linarith [h3.2]⟩

/-- C7 witness: at the initial world with random samples 0.5, a single w
press raises the cube's Y by exactly 0.1 and a single a press lowers the
camera's X by exactly 0.1. -/
theorem C7_keydown_mappings_witness :
    handleKeydown initialWorld Key.w 0.5 0.5 0.5
      = { initialWorld with cubePos :=
          { initialWorld.cubePos with y := initialWorld.cubePos.y + 0.1 } } ∧
    handleKeydown initialWorld Key.a 0.5 0.5 0.5
      = { initialWorld with cameraPos :=
          { initialWorld.cameraPos with x := initialWorld.cameraPos.x - 0.1 } } :=
  ⟨(C7_keydown_mappings initialWorld 0.5 0.5 0.5
      (by norm_num) (by norm_num) (by norm_num)).1,
   (C7_keydown_mappings initialWorld 0.5 0.5 0.5
      (by norm_num) (by norm_num) (by norm_num)).2.2.1⟩

/-- C10: the space branch copies the cube position by value into the new
projectile (cubeMesh.position.clone() in the source), so a spawn only
appends to the projectile collection, leaving the cube, the camera, all
material uniforms and the mesh slots unchanged, and every key event leaves
every already spawned projectile exactly as it was. -/
theorem C10_spawn_copies (st : World) (k : Key) (r1 r2 r3 : ℝ) :
    (k ≠ Key.space → (handleKeydown st k r1 r2 r3).projectiles = st.projectiles) ∧
    (handleKeydown st Key.space r1 r2 r3).projectiles
      = st.projectiles ++ [Projectile.spawn st.cubePos ⟨r1 - 0.5, r2 - 0.5, r3 - 0.5⟩] ∧
    (handleKeydown st Key.space r1 r2 r3).cubePos = st.cubePos ∧
    (handleKeydown st Key.space r1 r2 r3).cameraPos = st.cameraPos ∧
    (handleKeydown st Key.space r1 r2 r3).alphabetIntensity = st.alphabetIntensity ∧
    (handleKeydown st Key.space r1 r2 r3).digitIntensity = st.digitIntensity ∧
    (handleKeydown st Key.space r1 r2 r3).alphabetCubePosU = st.alphabetCubePosU ∧
    (handleKeydown st Key.space r1 r2 r3).alphabetViewPosU = st.alphabetViewPosU ∧
    (handleKeydown st Key.space r1 r2 r3).digitCubePosU = st.digitCubePosU ∧
    (handleKeydown st Key.space r1 r2 r3).digitViewPosU = st.digitViewPosU ∧
    (handleKeydown st Key.space r1 r2 r3).letterN = st.letterN ∧
    (handleKeydown st Key.space r1 r2 r3).number1 = st.number1 ∧
    ∀ p ∈ st.projectiles, p ∈ (handleKeydown st k r1 r2 r3).projectiles := by
  refine ⟨?_, rfl, rfl, rfl, rfl, rfl, rfl, rfl, rfl, rfl, rfl, rfl, ?_⟩
  · intro h
    cases k <;> first | rfl | exact absurd rfl h
  · intro p hp
    cases k <;> first
      | exact hp
      | exact List.mem_append_left _ hp

/-- C10 witness: a non-space key leaves the projectile collection of the
initial world unchanged, and a space press with samples 0.25 appends one
projectile spawned at the cube position. -/
theorem C10_spawn_copies_witness :
    (handleKeydown initialWorld Key.d 0.25 0.25 0.25).projectiles
      = initialWorld.projectiles ∧
    (handleKeydown initialWorld Key.space 0.25 0.25 0.25).projectiles
      = initialWorld.projectiles ++ [Projectile.spawn initialWorld.cubePos
          ⟨0.25 - 0.5, 0.25 - 0.5, 0.25 - 0.5⟩] :=
  ⟨(C10_spawn_copies initialWorld Key.d 0.25 0.25 0.25).1 (by decide),
   (C10_spawn_copies initialWorld Key.d 0.25 0.25 0.25).2.1⟩

/-- C8: while the font load has not resolved (either mesh slot is still
empty), a frame changes neither ambient-intensity uniform but still runs
the prune and advance steps on the projectile collection; and for every
number of frames from the initial world (where the load never completes),
both uniforms still hold their initial 0.401. -/
theorem C8_meshes_missing_guard :
    (∀ w : World, w.letterN = none ∨ w.number1 = none →
      (animate w).alphabetIntensity = w.alphabetIntensity ∧
      (animate w).digitIntensity = w.digitIntensity ∧
      (animate w).projectiles = (liveProjectiles w).map Projectile.update) ∧
    ∀ n : ℕ, (animate^[n] initialWorld).alphabetIntensity = 0.401 ∧
      (animate^[n] initialWorld).digitIntensity = 0.401 := by
  have hframe : ∀ w : World, w.letterN = none ∨ w.number1 = none →
      (animate w).alphabetIntensity = w.alphabetIntensity ∧
      (animate w).digitIntensity = w.digitIntensity ∧
      (animate w).projectiles = (liveProjectiles w).map Projectile.update := by
    intro w h
    have h2 : (animatePre w).letterN = none ∨ (animatePre w).number1 = none := h
    have h3 := updateProjectiles_intensities_of_none h2
    exact ⟨h3.1, h3.2, animate_projectiles w⟩
  refine ⟨hframe, ?_⟩
  intro n
  induction n with
  | zero => exact ⟨rfl, rfl⟩
  | succ n ih =>
      have hm := animate_iterate_meshes_none n
      have h4 := hframe _ (Or.inl hm.1)
      rw [Function.iterate_succ_apply', h4.1, h4.2.1]
      exact ih

/-- C8 witness: one frame from the initial world (meshes absent) leaves the
alphabet intensity unchanged, and after three frames both uniforms still
hold 0.401. -/
theorem C8_meshes_missing_guard_witness :
    (animate initialWorld).alphabetIntensity = initialWorld.alphabetIntensity ∧
    (animate^[3] initialWorld).alphabetIntensity = 0.401 ∧
    (animate^[3] initialWorld).digitIntensity = 0.401 :=
  ⟨(C8_meshes_missing_guard.1 initialWorld (Or.inl rfl)).1,
   (C8_meshes_missing_guard.2 3).1, (C8_meshes_missing_guard.2 3).2⟩

/-- C5: with both text meshes present and at least one live projectile,
the value each ambient-intensity uniform holds at the end of the pass is
determined solely by the last projectile evaluated — 0.8 when that last
projectile's updated position is within the detection radius of the mesh,
0.401 otherwise — regardless of the projectiles evaluated before it. -/
theorem C5_last_projectile_wins (w : World) (n o : Vec3)
    (l : List Projectile) (p : Projectile)
    (hn : w.letterN = some n) (ho : w.number1 = some o)
    (hl : liveProjectiles w = l ++ [p]) :
    ((updateProjectiles w).alphabetIntensity
        = if (p.update).pos.distanceTo n < DETECTION_RADIUS then 0.8 else 0.401) ∧
    ((updateProjectiles w).digitIntensity
        = if (p.update).pos.distanceTo o < DETECTION_RADIUS then 0.8 else 0.401) :=
  updateProjectiles_intensities_of_last hn ho hl

/-- C5 witness: with a first projectile that ends within the radius of the
letter mesh and a later one that does not, the letter uniform ends the pass
at 0.401 — the non-triggering last projectile overwrote the trigger. -/
theorem C5_last_projectile_wins_witness :
    (updateProjectiles (fontLoaded { initialWorld with projectiles :=
        [Projectile.mk ⟨-2, 0, 0⟩ ⟨0, 1, 0⟩ true true,
         Projectile.mk ⟨1, 0, 0⟩ ⟨1, 0, 0⟩ true true] })).alphabetIntensity = 0.401 ∧
    ((Projectile.mk ⟨-2, 0, 0⟩ ⟨0, 1, 0⟩ true true).update).pos.distanceTo ⟨-2, 0, 0⟩
      < DETECTION_RADIUS := by
  constructor
  · have h := (C5_last_projectile_wins
      (fontLoaded { initialWorld with projectiles :=
        [Projectile.mk ⟨-2, 0, 0⟩ ⟨0, 1, 0⟩ true true,
         Projectile.mk ⟨1, 0, 0⟩ ⟨1, 0, 0⟩ true true] })
      ⟨-2, 0, 0⟩ ⟨2, 0, 0⟩
      [Projectile.mk ⟨-2, 0, 0⟩ ⟨0, 1, 0⟩ true true]
      (Projectile.mk ⟨1, 0, 0⟩ ⟨1, 0, 0⟩ true true) rfl rfl rfl).1
    rw [h, update_concrete (by norm_num), if_neg]
    rw [Vec3.distanceTo_lt_iff _ _ (by norm_num [DETECTION_RADIUS])]
    norm_num [DETECTION_RADIUS]
  · rw [update_concrete (by norm_num),
      Vec3.distanceTo_lt_iff _ _ (by norm_num [DETECTION_RADIUS])]
    norm_num [DETECTION_RADIUS]

/-- C2 counterexample, two parts. First, the claim says a uniform ends the
frame at 0.8 when ANY live projectile is within the radius: with a first
projectile ending within radius 2 of the letter mesh and a second, last
evaluated one far from it, the letter uniform ends the pass at 0.401 even
though a live projectile sits at distance 0.1 from the mesh anchor. Second,
the claim says a frame with zero live projectiles leaves the uniform at
0.401, never at a stale 0.8: a pass over an empty collection leaves the
uniform at whatever it held before, here 0.8. -/
theorem C2_counterexample :
    ((updateProjectiles (fontLoaded { initialWorld with projectiles :=
        [Projectile.mk ⟨-2, 0, 0⟩ ⟨1, 0, 0⟩ true true,
         Projectile.mk ⟨3, 0, 0⟩ ⟨1, 0, 0⟩ true true] })).alphabetIntensity = 0.401 ∧
     (Projectile.mk ⟨-2, 0, 0⟩ ⟨1, 0, 0⟩ true true).update ∈
       (updateProjectiles (fontLoaded { initialWorld with projectiles :=
        [Projectile.mk ⟨-2, 0, 0⟩ ⟨1, 0, 0⟩ true true,
         Projectile.mk ⟨3, 0, 0⟩ ⟨1, 0, 0⟩ true true] })).projectiles ∧
     ((Projectile.mk ⟨-2, 0, 0⟩ ⟨1, 0, 0⟩ true true).update).alive = true ∧
     ((Projectile.mk ⟨-2, 0, 0⟩ ⟨1, 0, 0⟩ true true).update).pos.distanceTo ⟨-2, 0, 0⟩
       < DETECTION_RADIUS) ∧
    ((updateProjectiles (fontLoaded
        { initialWorld with alphabetIntensity := 0.8 })).alphabetIntensity = 0.8 ∧
     liveProjectiles (fontLoaded { initialWorld with alphabetIntensity := 0.8 }) = [] ∧
     (0.8 : ℝ) ≠ 0.401) := by
  refine ⟨⟨?_, ?_, ?_, ?_⟩, ?_, rfl, by norm_num⟩
  · have h := (updateProjectiles_intensities_of_last
      (w := fontLoaded { initialWorld with projectiles :=
        [Projectile.mk ⟨-2, 0, 0⟩ ⟨1, 0, 0⟩ true true,
         Projectile.mk ⟨3, 0, 0⟩ ⟨1, 0, 0⟩ true true] })
      (n := ⟨-2, 0, 0⟩) (o := ⟨2, 0, 0⟩)
      (l := [Projectile.mk ⟨-2, 0, 0⟩ ⟨1, 0, 0⟩ true true])
      (p := Projectile.mk ⟨3, 0, 0⟩ ⟨1, 0, 0⟩ true true) rfl rfl rfl).1
    rw [h, update_concrete (by norm_num), if_neg]
    rw [Vec3.distanceTo_lt_iff _ _ (by norm_num [DETECTION_RADIUS])]
    norm_num [DETECTION_RADIUS]
  · rw [updateProjectiles_projectiles]
    exact List.mem_map_of_mem Projectile.update (List.mem_cons_self _ _)
  · rw [update_concrete (by norm_num)]
  · rw [update_concrete (by norm_num),
      Vec3.distanceTo_lt_iff _ _ (by norm_num [DETECTION_RADIUS])]
    norm_num [DETECTION_RADIUS]
  · exact (updateProjectiles_intensities_of_empty
      (w := fontLoaded { initialWorld with alphabetIntensity := 0.8 }) rfl).1

/-- C2 (amended): when both meshes exist, a frame with at least one live
projectile ends each ambient-intensity uniform at 0.8 exactly when the LAST
projectile evaluated that frame is within the detection radius of the mesh
and at 0.401 otherwise; a frame with zero live projectiles leaves both
uniforms unchanged from the previous frame. -/
theorem C2_frame_intensity (w : World) (n o : Vec3)
    (hn : w.letterN = some n) (ho : w.number1 = some o) :
    (liveProjectiles w = [] →
      (animate w).alphabetIntensity = w.alphabetIntensity ∧
      (animate w).digitIntensity = w.digitIntensity) ∧
    ∀ l p, liveProjectiles w = l ++ [p] →
      ((animate w).alphabetIntensity
          = if (p.update).pos.distanceTo n < DETECTION_RADIUS then 0.8 else 0.401) ∧
      ((animate w).digitIntensity
          = if (p.update).pos.distanceTo o < DETECTION_RADIUS then 0.8 else 0.401) := by
  constructor
  · intro h
    have h2 : liveProjectiles (animatePre w) = [] := h
    exact updateProjectiles_intensities_of_empty h2
  · intro l p hl
    have hn2 : (animatePre w).letterN = some n := hn
    have ho2 : (animatePre w).number1 = some o := ho
    have hl2 : liveProjectiles (animatePre w) = l ++ [p] := hl
    exact updateProjectiles_intensities_of_last hn2 ho2 hl2

/-- C2 witness: one frame over a single live projectile that ends at
distance 0.1 from the letter anchor (below radius 2) puts the letter
uniform at 0.8. -/
theorem C2_frame_intensity_witness :
    (animate (fontLoaded { initialWorld with projectiles :=
      [Projectile.mk ⟨-2, 0, 0⟩ ⟨0, 1, 0⟩ true true] })).alphabetIntensity = 0.8 := by
  have h := ((C2_frame_intensity (fontLoaded { initialWorld with projectiles :=
      [Projectile.mk ⟨-2, 0, 0⟩ ⟨0, 1, 0⟩ true true] })
    ⟨-2, 0, 0⟩ ⟨2, 0, 0⟩ rfl rfl).2 []
    (Projectile.mk ⟨-2, 0, 0⟩ ⟨0, 1, 0⟩ true true) rfl).1
  rw [h, update_concrete (by norm_num), if_pos]
  rw [Vec3.distanceTo_lt_iff _ _ (by norm_num [DETECTION_RADIUS])]
  norm_num [DETECTION_RADIUS]

/-- C1: evaluation of the code at the failing input. A projectile spawned
at the origin with unit direction (1, 0, 0) moves 0.1 on its first update,
but because update rescales the stored direction in place, the stored
direction after that update is (0.1, 0, 0) — length 0.1, not a unit
vector — and the second update adds a displacement of only 0.01, not the
constant 0.1 per frame the claim states. -/
theorem C1_update_rescales_direction :
    (Projectile.spawn ⟨0, 0, 0⟩ ⟨1, 0, 0⟩).dir = ⟨1, 0, 0⟩ ∧
    ((Projectile.spawn ⟨0, 0, 0⟩ ⟨1, 0, 0⟩).update).dir = ⟨0.1, 0, 0⟩ ∧
    ((Projectile.spawn ⟨0, 0, 0⟩ ⟨1, 0, 0⟩).update).dir.length = 0.1 ∧
    ((Projectile.spawn ⟨0, 0, 0⟩ ⟨1, 0, 0⟩).update).dir.length ≠ 1 ∧
    ((Projectile.spawn ⟨0, 0, 0⟩ ⟨1, 0, 0⟩).update).pos.distanceTo ⟨0, 0, 0⟩ = 0.1 ∧
    (((Projectile.spawn ⟨0, 0, 0⟩ ⟨1, 0, 0⟩).update).update).pos.distanceTo
        (((Projectile.spawn ⟨0, 0, 0⟩ ⟨1, 0, 0⟩).update).pos) = 0.01 := by
  have hl : (⟨1, 0, 0⟩ : Vec3).length = 1 := Vec3.length_eval _ (by norm_num) (by norm_num)
  have hnorm : (⟨1, 0, 0⟩ : Vec3).normalize = ⟨1, 0, 0⟩ := by
    rw [Vec3.normalize, hl, Vec3.divideScalar]
    apply Vec3.eq_of_components <;> simp
  have hspawn : Projectile.spawn ⟨0, 0, 0⟩ ⟨1, 0, 0⟩
      = Projectile.mk ⟨0, 0, 0⟩ ⟨1, 0, 0⟩ true true := by
    simp [Projectile.spawn, hnorm]
  have h1 : (Projectile.mk ⟨0, 0, 0⟩ ⟨1, 0, 0⟩ true true).update
      = Projectile.mk ⟨(0 : ℝ) + 1 * 0.1, 0 + 0 * 0.1, 0 + 0 * 0.1⟩
          ⟨(1 : ℝ) * 0.1, 0 * 0.1, 0 * 0.1⟩ true true := update_concrete (by norm_num)
  have h2 : (Projectile.mk ⟨(0 : ℝ) + 1 * 0.1, 0 + 0 * 0.1, 0 + 0 * 0.1⟩
      ⟨(1 : ℝ) * 0.1, 0 * 0.1, 0 * 0.1⟩ true true).update
      = Projectile.mk ⟨(0 : ℝ) + 1 * 0.1 + 1 * 0.1 * 0.1,
          0 + 0 * 0.1 + 0 * 0.1 * 0.1, 0 + 0 * 0.1 + 0 * 0.1 * 0.1⟩
          ⟨(1 : ℝ) * 0.1 * 0.1, 0 * 0.1 * 0.1, 0 * 0.1 * 0.1⟩ true true :=
    update_concrete (by norm_num)
  have hlen : ((Projectile.spawn ⟨0, 0, 0⟩ ⟨1, 0, 0⟩).update).dir.length = 0.1 := by
    rw [hspawn, h1]
    exact Vec3.length_eval _ (by norm_num) (by norm_num)
  refine ⟨by rw [hspawn], ?_, hlen, ?_, ?_, ?_⟩
  · rw [hspawn, h1]
    apply Vec3.eq_of_components <;> norm_num
  · rw [hlen]
    norm_num
  · rw [hspawn, h1]
    exact Vec3.distanceTo_eval _ _ (by norm_num) (by norm_num)
  · rw [hspawn, h1, h2]
    exact Vec3.distanceTo_eval _ _ (by norm_num) (by norm_num)

/-- C6: spawn normalizes the supplied raw direction before storing it:
raw input (0.5, 0.5, 0.5) is stored as the unit vector with components
1 / sqrt 3, and one update step at speed 0.1 from the origin puts the
position at components 0.1 / sqrt 3. -/
theorem C6_spawn_normalizes :
    (Projectile.spawn ⟨0, 0, 0⟩ ⟨0.5, 0.5, 0.5⟩).dir
      = ⟨1 / Real.sqrt 3, 1 / Real.sqrt 3, 1 / Real.sqrt 3⟩ ∧
    ((Projectile.spawn ⟨0, 0, 0⟩ ⟨0.5, 0.5, 0.5⟩).update).pos
      = ⟨0.1 / Real.sqrt 3, 0.1 / Real.sqrt 3, 0.1 / Real.sqrt 3⟩ := by
  have h3 : Real.sqrt 3 ≠ 0 := Real.sqrt_ne_zero'.mpr (by norm_num)
  have hsq : Real.sqrt 3 ^ 2 = 3 := Real.sq_sqrt (by norm_num)
  have hlen : (⟨0.5, 0.5, 0.5⟩ : Vec3).length = Real.sqrt 3 / 2 := by
    apply Vec3.length_eval _ (by positivity)
    rw [div_pow, hsq]
    norm_num
  have hlen0 : (⟨0.5, 0.5, 0.5⟩ : Vec3).length ≠ 0 := by
    rw [hlen]
    positivity
  have hnorm : (⟨0.5, 0.5, 0.5⟩ : Vec3).normalize
      = ⟨1 / Real.sqrt 3, 1 / Real.sqrt 3, 1 / Real.sqrt 3⟩ := by
    rw [Vec3.normalize, if_neg hlen0, hlen, Vec3.divideScalar]
    apply Vec3.eq_of_components <;>
      · simp only [Vec3.multiplyScalar_x, Vec3.multiplyScalar_y, Vec3.multiplyScalar_z]
        rw [div_div_eq_mul_div, one_mul, ← mul_div_assoc]
        norm_num
  have hspawn : Projectile.spawn ⟨0, 0, 0⟩ ⟨0.5, 0.5, 0.5⟩
      = Projectile.mk ⟨0, 0, 0⟩ ⟨1 / Real.sqrt 3, 1 / Real.sqrt 3, 1 / Real.sqrt 3⟩
          true true := by
    simp [Projectile.spawn, hnorm]
  have hc : (1 / Real.sqrt 3) ^ 2 = 1 / 3 := by
    rw [div_pow, one_pow, hsq]
  have hstep : (Projectile.mk ⟨0, 0, 0⟩
      ⟨1 / Real.sqrt 3, 1 / Real.sqrt 3, 1 / Real.sqrt 3⟩ true true).update
      = Projectile.mk
          ⟨(0 : ℝ) + 1 / Real.sqrt 3 * 0.1, 0 + 1 / Real.sqrt 3 * 0.1,
            0 + 1 / Real.sqrt 3 * 0.1⟩
          ⟨1 / Real.sqrt 3 * 0.1, 1 / Real.sqrt 3 * 0.1, 1 / Real.sqrt 3 * 0.1⟩
          true true := by
    apply update_concrete
    nlinarith [hc]
  refine ⟨by rw [hspawn], ?_⟩
  rw [hspawn, hstep]
  apply Vec3.eq_of_components <;>
    · simp only []
      ring

/-- C9: because update rescales the stored direction in place by the speed
factor, a spawned projectile's per-frame step decays geometrically: after n
updates the stored direction is the normalized spawn direction scaled by
0.1 to the n, the step taken between update n and update n + 1 has length
0.1 to the n + 1 times the normalized direction's length, the total
displacement from the spawn position stays strictly below 1/9; hence a
projectile spawned at most 9.8 from the origin always stays strictly
inside distance 10, is never destroyed (stays alive and in the scene), and
its updated self is always carried into the next pass's collection. -/
theorem C9_geometric_decay (start dir0 : Vec3) (hs : start.length ≤ 9.8) (n : ℕ) :
    ((Projectile.update^[n] (Projectile.spawn start dir0)).alive = true) ∧
    ((Projectile.update^[n] (Projectile.spawn start dir0)).inScene = true) ∧
    ((Projectile.update^[n] (Projectile.spawn start dir0)).dir
      = (dir0.normalize).multiplyScalar (PROJECTILE_SPEED ^ n)) ∧
    ((Projectile.update^[n] (Projectile.spawn start dir0)).pos.distanceTo start
      < 1 / 9) ∧
    ((Projectile.update^[n] (Projectile.spawn start dir0)).pos.length < 10) ∧
    ((Projectile.update^[n + 1] (Projectile.spawn start dir0)).pos.distanceTo
        ((Projectile.update^[n] (Projectile.spawn start dir0)).pos)
      = PROJECTILE_SPEED ^ (n + 1) * (dir0.normalize).length) ∧
    ∀ w : World,
      Projectile.update^[n] (Projectile.spawn start dir0) ∈ liveProjectiles w →
      (Projectile.update^[n] (Projectile.spawn start dir0)).update
        ∈ (updateProjectiles w).projectiles := by
  have hd : (dir0.normalize).length ≤ 1 := Vec3.length_normalize_le_one dir0
  have hdn : 0 ≤ (dir0.normalize).length := (dir0.normalize).length_nonneg
  have hsp : Projectile.spawn start dir0
      = Projectile.mk start dir0.normalize true true := rfl
  have it := update_iterate start dir0.normalize hd hs
  have hpow : 0 < (0.1 : ℝ) ^ n := pow_pos (by norm_num) n
  have hple : (0.1 : ℝ) ^ n ≤ 1 := pow_le_one₀ (by norm_num) (by norm_num)
  have hc0 : (0 : ℝ) ≤ (1 - (0.1 : ℝ) ^ n) / 9 := by linarith
  have hdist : (Projectile.update^[n] (Projectile.spawn start dir0)).pos.distanceTo
      start = (1 - (0.1 : ℝ) ^ n) / 9 * (dir0.normalize).length := by
    rw [hsp, it n]
    rw [show (Projectile.mk
        (start.add ((dir0.normalize).multiplyScalar ((1 - (0.1 : ℝ) ^ n) / 9)))
        ((dir0.normalize).multiplyScalar ((0.1 : ℝ) ^ n)) true true).pos
      = start.add ((dir0.normalize).multiplyScalar ((1 - (0.1 : ℝ) ^ n) / 9))
      from rfl]
    rw [Vec3.distanceTo_add_left, Vec3.length_multiplyScalar, abs_of_nonneg hc0]
  have hdlt : (Projectile.update^[n] (Projectile.spawn start dir0)).pos.distanceTo
      start < 1 / 9 := by
    rw [hdist]
    calc (1 - (0.1 : ℝ) ^ n) / 9 * (dir0.normalize).length
        ≤ (1 - (0.1 : ℝ) ^ n) / 9 * 1 := mul_le_mul_of_nonneg_left hd hc0
      _ < 1 / 9 := by linarith
  refine ⟨?_, ?_, ?_, hdlt, ?_, ?_, ?_⟩
  · rw [hsp, it n]
  · rw [hsp, it n]
  · rw [hsp, it n, show PROJECTILE_SPEED = (0.1 : ℝ) from rfl]
  · rw [hsp, it n]
    calc (Projectile.mk
          (start.add ((dir0.normalize).multiplyScalar ((1 - (0.1 : ℝ) ^ n) / 9)))
          ((dir0.normalize).multiplyScalar ((0.1 : ℝ) ^ n)) true true).pos.length
        ≤ start.length
          + ((dir0.normalize).multiplyScalar ((1 - (0.1 : ℝ) ^ n) / 9)).length :=
          Vec3.length_add_le _ _
      _ ≤ 9.8 + (1 - (0.1 : ℝ) ^ n) / 9 * (dir0.normalize).length := by
          rw [Vec3.length_multiplyScalar, abs_of_nonneg hc0]
          linarith
      _ ≤ 9.8 + (1 - (0.1 : ℝ) ^ n) / 9 * 1 := by
          have := mul_le_mul_of_nonneg_left hd hc0
          linarith
      _ < 10 := by linarith
  · rw [hsp, it n, it (n + 1)]
    have hstep : start.add ((dir0.normalize).multiplyScalar
          ((1 - (0.1 : ℝ) ^ (n + 1)) / 9))
        = (start.add ((dir0.normalize).multiplyScalar ((1 - (0.1 : ℝ) ^ n) / 9))).add
          ((dir0.normalize).multiplyScalar ((0.1 : ℝ) ^ (n + 1))) := by
      apply Vec3.eq_of_components <;>
        · simp only [Vec3.add_x, Vec3.add_y, Vec3.add_z, Vec3.multiplyScalar_x,
            Vec3.multiplyScalar_y, Vec3.multiplyScalar_z, pow_succ]
          ring
    rw [show (Projectile.mk
        (start.add ((dir0.normalize).multiplyScalar ((1 - (0.1 : ℝ) ^ (n + 1)) / 9)))
        ((dir0.normalize).multiplyScalar ((0.1 : ℝ) ^ (n + 1))) true true).pos
      = start.add ((dir0.normalize).multiplyScalar ((1 - (0.1 : ℝ) ^ (n + 1)) / 9))
      from rfl]
    rw [show (Projectile.mk
        (start.add ((dir0.normalize).multiplyScalar ((1 - (0.1 : ℝ) ^ n) / 9)))
        ((dir0.normalize).multiplyScalar ((0.1 : ℝ) ^ n)) true true).pos
      = start.add ((dir0.normalize).multiplyScalar ((1 - (0.1 : ℝ) ^ n) / 9))
      from rfl]
    rw [hstep, Vec3.distanceTo_add_left, Vec3.length_multiplyScalar,
      abs_of_nonneg (le_of_lt (pow_pos (by norm_num) (n + 1))),
      show PROJECTILE_SPEED = (0.1 : ℝ) from rfl]
  · intro w hmem
    rw [updateProjectiles_projectiles]
    exact List.mem_map_of_mem Projectile.update hmem

/-- C9 witness: a projectile spawned at the origin (distance 0, at most
9.8) along (1, 0, 0) is still alive after two updates and still strictly
inside distance 10. -/
theorem C9_geometric_decay_witness :
    ((Projectile.update^[2] (Projectile.spawn ⟨0, 0, 0⟩ ⟨1, 0, 0⟩)).alive = true) ∧
    ((Projectile.update^[2] (Projectile.spawn ⟨0, 0, 0⟩ ⟨1, 0, 0⟩)).pos.length < 10) := by
  have hs : (⟨0, 0, 0⟩ : Vec3).length ≤ 9.8 := by
    rw [Vec3.length_eval _ (le_refl (0 : ℝ)) (by norm_num)]
    norm_num
  exact ⟨(C9_geometric_decay ⟨0, 0, 0⟩ ⟨1, 0, 0⟩ hs 2).1,
    (C9_geometric_decay ⟨0, 0, 0⟩ ⟨1, 0, 0⟩ hs 2).2.2.2.2.1⟩

end Grafkom
